import Mathlib

/-!
Verification development for two Gazebo source files:
`gazebo/physics/simbody/SimbodyModel.cc` (the `SimbodyModel` adapter over the
Simbody physics engine) and the Ogre `Visual` class.

The C++ code is shallowly embedded: the mutable objects become Lean
structures, the methods become state-passing functions, and the calls that
`SimbodyModel::Init` makes into child objects, the physics engine and the
transport layer are recorded as an event trace, so that ordering and
publication properties can be stated about it.
-/

namespace Gazebo

/-! ## SimbodyModel (`SimbodyModel.cc`) -/

/-- A joint message, as filled by `Joint::FillMsg` and published on the
joint publisher.  `Joint::FillMsg` lives outside the shown sources, so the
message is identified by the data of the joint it was filled from. -/
structure JointMsg where
  jointId : Nat
deriving DecidableEq, Repr

/-- A joint of the model.  `throwsOnInit` records whether `Joint::Init`
(outside the shown sources) throws for this joint. -/
structure SBJoint where
  id : Nat
  throwsOnInit : Bool
deriving DecidableEq, Repr

/-- `Joint::FillMsg` fills a `msgs::Joint` from the joint. -/
def SBJoint.FillMsg (j : SBJoint) : JointMsg :=
  ⟨j.id⟩

/-- A child of the model, classified the way `SimbodyModel::Init` tests it:
`HasType(Base::LINK)` first, then `HasType(Base::MODEL)`; anything else is
skipped by the loop. -/
inductive SBChild where
  | link (id : Nat)
  | model (id : Nat)
  | other (id : Nat)
deriving DecidableEq, Repr

/-- Observable calls made by `SimbodyModel::Init`, in program order.
Calls into child objects (`Link::Init`, a nested model's `Init`,
`Gripper::Init`, `Joint::Init`), into the physics engine
(`SimbodyPhysics::InitModel`) and into the transport layer
(`jointPub->Publish`) are opaque: each is one event. -/
inductive SBEvent where
  | setInitialRelativePose
  | setRelativePose
  | linkInit (id : Nat)
  | childModelInit (id : Nat)
  | gripperInit (id : Nat)
  | physicsInitModel
  | jointInit (id : Nat)
  | logInitJointFailed
  | publishJointMsg (m : JointMsg)
deriving DecidableEq, Repr

/-- The first loop of `SimbodyModel::Init`: for each child, call `Init` on
it when it has type `LINK`, else when it has type `MODEL`; other children
are skipped. -/
def sbChildInitEvents : List SBChild → List SBEvent
  | [] => []
  | SBChild.link id :: rest => SBEvent.linkInit id :: sbChildInitEvents rest
  | SBChild.model id :: rest => SBEvent.childModelInit id :: sbChildInitEvents rest
  | SBChild.other _ :: rest => sbChildInitEvents rest

/-- The joint loop of `SimbodyModel::Init`: call `Init` on each joint in
order inside a `try`; on a throw, log `Init joint failed` and return.
The boolean is `true` when the loop ran to completion. -/
def sbJointInitEvents : List SBJoint → List SBEvent × Bool
  | [] => ([], true)
  | j :: rest =>
    if j.throwsOnInit then
      ([SBEvent.jointInit j.id, SBEvent.logInitJointFailed], false)
    else
      let p := sbJointInitEvents rest
      (SBEvent.jointInit j.id :: p.1, p.2)

/-- The state of a `SimbodyModel` that `Init` reads: the `children` list,
the `grippers` list, the `joints` list, and whether the world's physics
engine dynamic-casts to `SimbodyPhysics`. -/
structure SimbodyModelState where
  children : List SBChild
  grippers : List Nat
  joints : List SBJoint
  physicsEngineIsSimbody : Bool
deriving DecidableEq, Repr

/-- Shallow embedding of `SimbodyModel::Init` as the trace of calls it
makes: record the initial pose, initialize link and nested-model children,
initialize the grippers, call `SimbodyPhysics::InitModel` when the engine
is a `SimbodyPhysics`, initialize the joints (aborting on a throw), and,
only when every joint initialized, fill and publish one `msgs::Joint` per
joint. -/
def SimbodyModelState.Init (m : SimbodyModelState) : List SBEvent :=
  ((([SBEvent.setInitialRelativePose, SBEvent.setRelativePose]
      ++ sbChildInitEvents m.children)
      ++ m.grippers.map SBEvent.gripperInit)
      ++ (if m.physicsEngineIsSimbody then [SBEvent.physicsInitModel] else []))
      ++ ((sbJointInitEvents m.joints).1
          ++ (if (sbJointInitEvents m.joints).2 then
                m.joints.map (fun j => SBEvent.publishJointMsg j.FillMsg)
              else []))

/-- Shallow embedding of `SimbodyModel::Load(_sdf)`: its whole body is the
call `Model::Load(_sdf)`.  `Model::Load` lives outside the shown sources
and is taken as an arbitrary transformer `modelLoad` of the model state. -/
def SimbodyModelLoad {Sdf ModelState : Type}
    (modelLoad : Sdf → ModelState → ModelState)
    (sdf : Sdf) (s : ModelState) : ModelState :=
  modelLoad sdf s

/-- Recognize the events initializing a `LINK` or `MODEL` child. -/
def isChildInitEv : SBEvent → Bool
  | SBEvent.linkInit _ => true
  | SBEvent.childModelInit _ => true
  | _ => false

/-- Recognize the events initializing a joint. -/
def isJointInitEv : SBEvent → Bool
  | SBEvent.jointInit _ => true
  | _ => false

/-- Recognize the `SimbodyPhysics::InitModel` event. -/
def isPhysicsInitEv : SBEvent → Bool
  | SBEvent.physicsInitModel => true
  | _ => false

/-- Recognize a joint-message publication event. -/
def isPublishEv : SBEvent → Bool
  | SBEvent.publishJointMsg _ => true
  | _ => false

/-- In trace `t`, every event satisfying `p` occurs strictly before every
event satisfying `q`. -/
def eventsOrdered (p q : SBEvent → Bool) (t : List SBEvent) : Prop :=
  ∀ i j (hi : i < t.length) (hj : j < t.length),
    p (t.get ⟨i, hi⟩) = true → q (t.get ⟨j, hj⟩) = true → i < j

theorem eventsOrdered_append {p q : SBEvent → Bool} {a b : List SBEvent}
    (hb : ∀ x ∈ b, p x = false) (ha : ∀ x ∈ a, q x = false) :
    eventsOrdered p q (a ++ b) := by
  intro i j hi hj hp hq
  have hia : i < a.length := by
    by_contra hcon
    push_neg at hcon
    rw [List.get_eq_getElem, List.getElem_append_right hcon] at hp
    rw [hb _ (List.getElem_mem _)] at hp
    exact Bool.false_ne_true hp
  have hja : ¬ j < a.length := by
    intro hcon
    rw [List.get_eq_getElem, List.getElem_append_left hcon] at hq
    rw [ha _ (List.getElem_mem _)] at hq
    exact Bool.false_ne_true hq
  omega

theorem mem_sbChildInitEvents {cs : List SBChild} {x : SBEvent}
    (hx : x ∈ sbChildInitEvents cs) :
    (∃ id, x = SBEvent.linkInit id) ∨ (∃ id, x = SBEvent.childModelInit id) := by
  induction cs with
  | nil => simp [sbChildInitEvents] at hx
  | cons c rest ih =>
    cases c with
    | link id =>
      rcases List.mem_cons.mp hx with h | h
      · exact Or.inl ⟨id, h⟩
      · exact ih h
    | model id =>
      rcases List.mem_cons.mp hx with h | h
      · exact Or.inr ⟨id, h⟩
      · exact ih h
    | other id => exact ih hx

theorem mem_sbJointInitEvents {js : List SBJoint} {x : SBEvent}
    (hx : x ∈ (sbJointInitEvents js).1) :
    (∃ id, x = SBEvent.jointInit id) ∨ x = SBEvent.logInitJointFailed := by
  induction js with
  | nil => simp [sbJointInitEvents] at hx
  | cons j rest ih =>
    cases hth : j.throwsOnInit with
    | true =>
      simp only [sbJointInitEvents, hth, if_true] at hx
      rcases List.mem_cons.mp hx with h | h
      · exact Or.inl ⟨j.id, h⟩
      · rcases List.mem_cons.mp h with h2 | h2
        · exact Or.inr h2
        · simp at h2
    | false =>
      simp only [sbJointInitEvents, hth, Bool.false_eq_true, if_false] at hx
      rcases List.mem_cons.mp hx with h | h
      · exact Or.inl ⟨j.id, h⟩
      · exact ih h

theorem sbJointInitEvents_all_ok {js : List SBJoint}
    (h : ∀ j ∈ js, j.throwsOnInit = false) :
    sbJointInitEvents js = (js.map (fun j => SBEvent.jointInit j.id), true) := by
  induction js with
  | nil => rfl
  | cons j rest ih =>
    have hj : j.throwsOnInit = false := h j (List.mem_cons_self j rest)
    have hrest : ∀ x ∈ rest, x.throwsOnInit = false :=
      fun x hx => h x (List.mem_cons_of_mem j hx)
    simp [sbJointInitEvents, hj, ih hrest]

theorem sbJointInitEvents_throw {js : List SBJoint}
    (h : ∃ j ∈ js, j.throwsOnInit = true) :
    (sbJointInitEvents js).2 = false ∧
      SBEvent.logInitJointFailed ∈ (sbJointInitEvents js).1 := by
  induction js with
  | nil => simp at h
  | cons j rest ih =>
    cases hth : j.throwsOnInit with
    | true => simp [sbJointInitEvents, hth]
    | false =>
      have hrest : ∃ k ∈ rest, k.throwsOnInit = true := by
        rcases h with ⟨k, hk, hkt⟩
        rcases List.mem_cons.mp hk with rfl | hk2
        · rw [hth] at hkt
          exact absurd hkt (by simp)
        · exact ⟨k, hk2, hkt⟩
      have hr := ih hrest
      simp [sbJointInitEvents, hth, hr.1, hr.2]

theorem linkInit_mem_sbChildInitEvents {cs : List SBChild} {id : Nat}
    (h : SBChild.link id ∈ cs) :
    SBEvent.linkInit id ∈ sbChildInitEvents cs := by
  induction cs with
  | nil => simp at h
  | cons c rest ih =>
    rcases List.mem_cons.mp h with rfl | h2
    · simp [sbChildInitEvents]
    · cases c <;> simp [sbChildInitEvents, ih h2]

theorem modelInit_mem_sbChildInitEvents {cs : List SBChild} {id : Nat}
    (h : SBChild.model id ∈ cs) :
    SBEvent.childModelInit id ∈ sbChildInitEvents cs := by
  induction cs with
  | nil => simp at h
  | cons c rest ih =>
    rcases List.mem_cons.mp h with rfl | h2
    · simp [sbChildInitEvents]
    · cases c <;> simp [sbChildInitEvents, ih h2]

theorem init_head3_not (m : SimbodyModelState) :
    ∀ x ∈ ([SBEvent.setInitialRelativePose, SBEvent.setRelativePose]
        ++ sbChildInitEvents m.children)
        ++ m.grippers.map SBEvent.gripperInit,
      isJointInitEv x = false ∧ isPhysicsInitEv x = false ∧ isPublishEv x = false := by
  intro x hx
  simp only [List.mem_append] at hx
  rcases hx with (hx | hx) | hx
  · rcases List.mem_cons.mp hx with rfl | hx2
    · exact ⟨rfl, rfl, rfl⟩
    · rcases List.mem_cons.mp hx2 with rfl | hx3
      · exact ⟨rfl, rfl, rfl⟩
      · simp at hx3
  · rcases mem_sbChildInitEvents hx with ⟨id, rfl⟩ | ⟨id, rfl⟩ <;> exact ⟨rfl, rfl, rfl⟩
  · rcases List.mem_map.mp hx with ⟨g, hg, rfl⟩
    exact ⟨rfl, rfl, rfl⟩

theorem init_head4_not (m : SimbodyModelState) :
    ∀ x ∈ (([SBEvent.setInitialRelativePose, SBEvent.setRelativePose]
        ++ sbChildInitEvents m.children)
        ++ m.grippers.map SBEvent.gripperInit)
        ++ (if m.physicsEngineIsSimbody then [SBEvent.physicsInitModel] else []),
      isJointInitEv x = false ∧ isPublishEv x = false := by
  intro x hx
  rcases List.mem_append.mp hx with hx | hx
  · exact ⟨(init_head3_not m x hx).1, (init_head3_not m x hx).2.2⟩
  · rcases Bool.eq_false_or_eq_true m.physicsEngineIsSimbody with hp | hp <;>
      simp [hp] at hx
    subst hx
    exact ⟨rfl, rfl⟩

theorem jointInitEvents_not (js : List SBJoint) :
    ∀ x ∈ (sbJointInitEvents js).1,
      isChildInitEv x = false ∧ isPhysicsInitEv x = false ∧ isPublishEv x = false := by
  intro x hx
  rcases mem_sbJointInitEvents hx with ⟨id, rfl⟩ | rfl <;> exact ⟨rfl, rfl, rfl⟩

theorem pubEvents_not (js : List SBJoint) :
    ∀ x ∈ js.map (fun j => SBEvent.publishJointMsg j.FillMsg),
      isChildInitEv x = false ∧ isPhysicsInitEv x = false ∧ isJointInitEv x = false := by
  intro x hx
  rcases List.mem_map.mp hx with ⟨j, hj, rfl⟩
  exact ⟨rfl, rfl, rfl⟩

theorem init_tail_not (m : SimbodyModelState) :
    ∀ x ∈ (sbJointInitEvents m.joints).1
        ++ (if (sbJointInitEvents m.joints).2 then
              m.joints.map (fun j => SBEvent.publishJointMsg j.FillMsg)
            else []),
      isChildInitEv x = false ∧ isPhysicsInitEv x = false := by
  intro x hx
  rcases List.mem_append.mp hx with hx | hx
  · exact ⟨(jointInitEvents_not _ x hx).1, (jointInitEvents_not _ x hx).2.1⟩
  · rcases Bool.eq_false_or_eq_true (sbJointInitEvents m.joints).2 with hp | hp <;>
      simp [hp] at hx
    rcases hx with ⟨j, hj, rfl⟩
    exact ⟨rfl, rfl⟩

/-- C1: in `SimbodyModel::Init`, every `LINK` or `MODEL` child is
initialized; every child initialization precedes every joint
initialization; and when the physics engine is a `SimbodyPhysics`,
`SimbodyPhysics::InitModel` is called after all child initializations and
before any joint initialization. -/
theorem simbodyModel_init_orders_children_before_joints (m : SimbodyModelState) :
    (∀ c ∈ m.children,
        (∀ id, c = SBChild.link id → SBEvent.linkInit id ∈ m.Init) ∧
        (∀ id, c = SBChild.model id → SBEvent.childModelInit id ∈ m.Init)) ∧
    eventsOrdered isChildInitEv isJointInitEv m.Init ∧
    (m.physicsEngineIsSimbody = true →
      SBEvent.physicsInitModel ∈ m.Init ∧
      eventsOrdered isChildInitEv isPhysicsInitEv m.Init ∧
      eventsOrdered isPhysicsInitEv isJointInitEv m.Init) := by
  have ht : m.Init
      = ((([SBEvent.setInitialRelativePose, SBEvent.setRelativePose]
          ++ sbChildInitEvents m.children)
          ++ m.grippers.map SBEvent.gripperInit)
          ++ (if m.physicsEngineIsSimbody then [SBEvent.physicsInitModel] else []))
          ++ ((sbJointInitEvents m.joints).1
              ++ (if (sbJointInitEvents m.joints).2 then
                    m.joints.map (fun j => SBEvent.publishJointMsg j.FillMsg)
                  else [])) := rfl
  refine ⟨?_, ?_, ?_⟩
  · intro c hc
    constructor
    · rintro id rfl
      have hm := linkInit_mem_sbChildInitEvents hc
      rw [ht]
      simp only [List.mem_append]
      exact Or.inl (Or.inl (Or.inl (Or.inr hm)))
    · rintro id rfl
      have hm := modelInit_mem_sbChildInitEvents hc
      rw [ht]
      simp only [List.mem_append]
      exact Or.inl (Or.inl (Or.inl (Or.inr hm)))
  · rw [ht]
    exact eventsOrdered_append
      (fun x hx => (init_tail_not m x hx).1)
      (fun x hx => (init_head4_not m x hx).1)
  · intro hphys
    refine ⟨?_, ?_, ?_⟩
    · rw [ht]
      simp only [List.mem_append, hphys, if_true]
      exact Or.inl (Or.inr (List.mem_singleton.mpr rfl))
    · have ht2 : m.Init
          = (([SBEvent.setInitialRelativePose, SBEvent.setRelativePose]
              ++ sbChildInitEvents m.children)
              ++ m.grippers.map SBEvent.gripperInit)
            ++ ((if m.physicsEngineIsSimbody then [SBEvent.physicsInitModel] else [])
              ++ ((sbJointInitEvents m.joints).1
                  ++ (if (sbJointInitEvents m.joints).2 then
                        m.joints.map (fun j => SBEvent.publishJointMsg j.FillMsg)
                      else []))) := by
        rw [ht, List.append_assoc]
      rw [ht2]
      refine eventsOrdered_append ?_ ?_
      · intro x hx
        rcases List.mem_append.mp hx with hx | hx
        · simp only [hphys, if_true, List.mem_singleton] at hx
          subst hx
          rfl
        · exact (init_tail_not m x hx).1
      · intro x hx
        exact (init_head3_not m x hx).2.1
    · rw [ht]
      exact eventsOrdered_append
        (fun x hx => (init_tail_not m x hx).2)
        (fun x hx => (init_head4_not m x hx).1)

/-- Concrete model used to instantiate the `SimbodyModel::Init` theorems:
two children (a link and a nested model), one gripper, two joints whose
`Init` does not throw, running under a `SimbodyPhysics` engine. -/
def sbExampleOk : SimbodyModelState :=
  ⟨[SBChild.link 0, SBChild.model 1, SBChild.other 2], [7],
   [⟨0, false⟩, ⟨1, false⟩], true⟩

/-- Concrete model whose second joint throws on `Init`. -/
def sbExampleThrow : SimbodyModelState :=
  ⟨[SBChild.link 0], [], [⟨0, false⟩, ⟨1, true⟩, ⟨2, false⟩], false⟩

/-- Instantiation of the C1 theorem at a concrete model. -/
theorem simbodyModel_init_orders_children_before_joints_witness :
    (∀ c ∈ sbExampleOk.children,
        (∀ id, c = SBChild.link id → SBEvent.linkInit id ∈ sbExampleOk.Init) ∧
        (∀ id, c = SBChild.model id → SBEvent.childModelInit id ∈ sbExampleOk.Init)) ∧
    eventsOrdered isChildInitEv isJointInitEv sbExampleOk.Init ∧
    (sbExampleOk.physicsEngineIsSimbody = true →
      SBEvent.physicsInitModel ∈ sbExampleOk.Init ∧
      eventsOrdered isChildInitEv isPhysicsInitEv sbExampleOk.Init ∧
      eventsOrdered isPhysicsInitEv isJointInitEv sbExampleOk.Init) :=
  simbodyModel_init_orders_children_before_joints sbExampleOk

/-- C2: `SimbodyModel::Load(_sdf)` performs exactly the call
`Model::Load(_sdf)` and nothing else: whatever the semantics `modelLoad`
of `Model::Load` is, its effect on any sdf element and any model state is
the effect of `SimbodyModel::Load`. -/
theorem simbodyModel_load_forwards_to_model_load {Sdf ModelState : Type}
    (modelLoad : Sdf → ModelState → ModelState) (sdf : Sdf) (s : ModelState) :
    SimbodyModelLoad modelLoad sdf s = modelLoad sdf s :=
  rfl

/-- C3: when no joint's `Init` throws, `SimbodyModel::Init` publishes
exactly one `msgs::Joint` per joint of the model, filled by `FillMsg`, in
joint-list order, and every publication happens after every joint
initialization. -/
theorem simbodyModel_init_publishes_joint_msgs_in_order (m : SimbodyModelState)
    (h : ∀ j ∈ m.joints, j.throwsOnInit = false) :
    m.Init.filter isPublishEv
        = m.joints.map (fun j => SBEvent.publishJointMsg j.FillMsg) ∧
    eventsOrdered isJointInitEv isPublishEv m.Init := by
  have hjoints := sbJointInitEvents_all_ok h
  have ht : m.Init
      = (((([SBEvent.setInitialRelativePose, SBEvent.setRelativePose]
          ++ sbChildInitEvents m.children)
          ++ m.grippers.map SBEvent.gripperInit)
          ++ (if m.physicsEngineIsSimbody then [SBEvent.physicsInitModel] else []))
          ++ m.joints.map (fun j => SBEvent.jointInit j.id))
          ++ m.joints.map (fun j => SBEvent.publishJointMsg j.FillMsg) := by
    rw [SimbodyModelState.Init, hjoints]
    simp [List.append_assoc]
  constructor
  · rw [ht, List.filter_append, List.filter_append]
    have h1 : (((([SBEvent.setInitialRelativePose, SBEvent.setRelativePose]
        ++ sbChildInitEvents m.children)
        ++ m.grippers.map SBEvent.gripperInit)
        ++ (if m.physicsEngineIsSimbody then [SBEvent.physicsInitModel] else []))).filter
          isPublishEv = [] := by
      rw [List.filter_eq_nil_iff]
      intro a ha
      simp [(init_head4_not m a ha).2]
    have h2 : (m.joints.map (fun j => SBEvent.jointInit j.id)).filter isPublishEv = [] := by
      rw [List.filter_eq_nil_iff]
      intro a ha
      rcases List.mem_map.mp ha with ⟨j, hj, rfl⟩
      simp [isPublishEv]
    have h3 : (m.joints.map (fun j => SBEvent.publishJointMsg j.FillMsg)).filter
        isPublishEv = m.joints.map (fun j => SBEvent.publishJointMsg j.FillMsg) := by
      rw [List.filter_eq_self]
      intro a ha
      rcases List.mem_map.mp ha with ⟨j, hj, rfl⟩
      rfl
    rw [h1, h2, h3, List.nil_append, List.nil_append]
  · rw [ht]
    refine eventsOrdered_append ?_ ?_
    · intro x hx
      exact (pubEvents_not m.joints x hx).2.2
    · intro x hx
      rcases List.mem_append.mp hx with hx | hx
      · exact (init_head4_not m x hx).2
      · rcases List.mem_map.mp hx with ⟨j, hj, rfl⟩
        rfl

/-- Instantiation of the C3 theorem at a concrete model with two
non-throwing joints. -/
theorem simbodyModel_init_publishes_joint_msgs_in_order_witness :
    (∀ j ∈ sbExampleOk.joints, j.throwsOnInit = false) ∧
    (sbExampleOk.Init.filter isPublishEv
        = sbExampleOk.joints.map (fun j => SBEvent.publishJointMsg j.FillMsg) ∧
      eventsOrdered isJointInitEv isPublishEv sbExampleOk.Init) :=
  ⟨by decide, simbodyModel_init_publishes_joint_msgs_in_order sbExampleOk (by decide)⟩

/-- C9: when some joint's `Init` throws, `SimbodyModel::Init` logs the
failure and returns without publishing any joint message, including for
the joints that had already initialized. -/
theorem simbodyModel_init_aborts_on_joint_throw (m : SimbodyModelState)
    (h : ∃ j ∈ m.joints, j.throwsOnInit = true) :
    m.Init.filter isPublishEv = [] ∧ SBEvent.logInitJointFailed ∈ m.Init := by
  have hthrow := sbJointInitEvents_throw h
  have ht : m.Init
      = ((([SBEvent.setInitialRelativePose, SBEvent.setRelativePose]
          ++ sbChildInitEvents m.children)
          ++ m.grippers.map SBEvent.gripperInit)
          ++ (if m.physicsEngineIsSimbody then [SBEvent.physicsInitModel] else []))
          ++ (sbJointInitEvents m.joints).1 := by
    rw [SimbodyModelState.Init, hthrow.1]
    simp
  constructor
  · rw [ht, List.filter_append]
    have h1 : (((([SBEvent.setInitialRelativePose, SBEvent.setRelativePose]
        ++ sbChildInitEvents m.children)
        ++ m.grippers.map SBEvent.gripperInit)
        ++ (if m.physicsEngineIsSimbody then [SBEvent.physicsInitModel] else []))).filter
          isPublishEv = [] := by
      rw [List.filter_eq_nil_iff]
      intro a ha
      simp [(init_head4_not m a ha).2]
    have h2 : ((sbJointInitEvents m.joints).1).filter isPublishEv = [] := by
      rw [List.filter_eq_nil_iff]
      intro a ha
      simp [(jointInitEvents_not m.joints a ha).2.2]
    rw [h1, h2, List.nil_append]
  · rw [ht]
    exact List.mem_append.mpr (Or.inr hthrow.2)

/-- Instantiation of the C9 theorem at a concrete model whose second joint
throws on `Init`. -/
theorem simbodyModel_init_aborts_on_joint_throw_witness :
    (∃ j ∈ sbExampleThrow.joints, j.throwsOnInit = true) ∧
    (sbExampleThrow.Init.filter isPublishEv = []
      ∧ SBEvent.logInitJointFailed ∈ sbExampleThrow.Init) :=
  ⟨by decide, simbodyModel_init_aborts_on_joint_throw sbExampleThrow (by decide)⟩

/-! ## Visual (the Ogre rendering adapter)

The `enabled` argument of the methods below is the value of
`Simulator::Instance()->GetRenderEngineEnabled()` at the time of the call.
Scalar components are modelled as rationals: every operation the claims
touch only copies or compares components, so no rounding occurs. -/

/-- Gazebo math 3-vector. -/
structure Vector3 where
  x : ℚ
  y : ℚ
  z : ℚ
deriving DecidableEq, Repr

/-- Modelled from the spec: the default constructor `Vector3()` of Gazebo's
math vector lives outside the shown sources; the disabled-renderer branch
of `Visual::GetPosition` relies on it value-initializing every component to
zero. -/
def Vector3.zero : Vector3 :=
  ⟨0, 0, 0⟩

/-- Gazebo math quaternion, with scalar part `u`. -/
structure Quatern where
  u : ℚ
  x : ℚ
  y : ℚ
  z : ℚ
deriving DecidableEq, Repr

/-- Modelled from the spec: the default constructor `Quatern()` lives outside
the shown sources; the identity quaternion (1,0,0,0) is used, matching the
default the file itself passes for its `rpy` parameter. -/
def Quatern.identityQ : Quatern :=
  ⟨1, 0, 0, 0⟩

/-- Gazebo math pose: position and rotation. -/
structure Pose3d where
  pos : Vector3
  rot : Quatern
deriving DecidableEq, Repr

/-- Modelled from the spec: a default-constructed `Pose3d()` holds
default-constructed position and rotation. -/
def Pose3d.defaultPose : Pose3d :=
  ⟨Vector3.zero, Quatern.identityQ⟩

/-- `Ogre::Vector3`, the rendering engine's vector type. -/
structure OgreVector3 where
  x : ℚ
  y : ℚ
  z : ℚ
deriving DecidableEq, Repr

/-- `Ogre::Quaternion`, with scalar part `w`. -/
structure OgreQuaternion where
  w : ℚ
  x : ℚ
  y : ℚ
  z : ℚ
deriving DecidableEq, Repr

/-- An `Ogre::MovableObject` attached to a scene node, keeping the state the
`Visual` methods mutate: the cast-shadows flag and the material name
(`setMaterialName` on an `Ogre::Entity`, `setMaterial` on an
`Ogre::SimpleRenderable`; both record the assigned name). -/
structure MovableObject where
  isEntity : Bool
  castShadows : Bool
  materialName : String
deriving DecidableEq, Repr

/-- An `Ogre::SceneNode`: its name, local position and orientation, the
attached movable objects, and the names of its child scene nodes. -/
structure SceneNode where
  name : String
  position : OgreVector3
  orientation : OgreQuaternion
  attached : List MovableObject
  childNames : List String
deriving DecidableEq, Repr

/-- `Ogre::SceneNode::createChildSceneNode(name)`: returns the fresh child
node and the parent node now holding exactly one more child. -/
def SceneNode.createChildSceneNode (parent : SceneNode) (cname : String) :
    SceneNode × SceneNode :=
  (⟨cname, ⟨0, 0, 0⟩, ⟨1, 0, 0, 0⟩, [], []⟩,
   { parent with childNames := parent.childNames ++ [cname] })

/-- An `Ogre::StaticGeometry`, keeping the flag `setCastShadows` mutates. -/
structure StaticGeometry where
  castShadows : Bool
deriving DecidableEq, Repr

/-- A C++ `float` value as the transparency member stores it: NaN, an
infinity, or a finite value (the finite magnitudes are modelled as
rationals; `Visual` only compares and copies them, so no rounding
occurs). -/
inductive GzFloat where
  | nan
  | negInf
  | posInf
  | val (q : ℚ)
deriving DecidableEq, Repr

/-- The `<` comparison on floats; false whenever either side is NaN. -/
def GzFloat.lt : GzFloat → GzFloat → Bool
  | GzFloat.nan, _ => false
  | _, GzFloat.nan => false
  | GzFloat.negInf, GzFloat.negInf => false
  | GzFloat.negInf, _ => true
  | GzFloat.posInf, _ => false
  | GzFloat.val _, GzFloat.negInf => false
  | GzFloat.val _, GzFloat.posInf => true
  | GzFloat.val a, GzFloat.val b => decide (a < b)

/-- The `<=` comparison on floats; false whenever either side is NaN. -/
def GzFloat.le : GzFloat → GzFloat → Bool
  | GzFloat.nan, _ => false
  | _, GzFloat.nan => false
  | GzFloat.negInf, _ => true
  | GzFloat.posInf, GzFloat.posInf => true
  | GzFloat.posInf, _ => false
  | GzFloat.val _, GzFloat.negInf => false
  | GzFloat.val _, GzFloat.posInf => true
  | GzFloat.val a, GzFloat.val b => decide (a ≤ b)

/-- `std::max(a, b)`: `(a < b) ? b : a`, so NaN on the left propagates. -/
def GzFloat.fmax (a b : GzFloat) : GzFloat :=
  if GzFloat.lt a b then b else a

/-- `std::min(a, b)`: `(b < a) ? b : a`, so NaN on the left propagates. -/
def GzFloat.fmin (a b : GzFloat) : GzFloat :=
  if GzFloat.lt b a then b else a

/-- A `Scene`: `GetManager()->getRootSceneNode()` is its root node. -/
structure Scene where
  rootSceneNode : SceneNode
deriving DecidableEq, Repr

/-- The state of a `Visual` that the embedded methods touch. -/
structure Visual where
  name : String
  sceneNode : SceneNode
  transparency : GzFloat
  isStatic : Bool
  visible : Bool
  staticGeom : Option StaticGeometry
  myMaterialName : String
  origMaterialName : String
deriving DecidableEq, Repr

/-- The fields of a freshly constructed `Visual`: `SetName(name)`, the
values set by the `Visual::Init` helper every constructor calls
(`transparency = 0`, `isStatic = false`, `visible = true`,
`staticGeom = NULL`), default-constructed string members, and the scene
node the constructor created. -/
def Visual.freshlyConstructed (vname : String) (node : SceneNode) : Visual :=
  { name := vname, sceneNode := node, transparency := GzFloat.val 0, isStatic := false,
    visible := true, staticGeom := none, myMaterialName := "",
    origMaterialName := "" }

/-- `Visual::Visual(name, Visual *parent)`: with a null parent the
constructor logs an error and then dereferences the null parent node (a
crash, modelled as `none`); otherwise it creates a child scene node named
after the visual under the parent's scene node.  Returns the new visual
and the parent's updated scene node. -/
def Visual.ctorParentVisual (vname : String) (parent : Option Visual) :
    Option (Visual × SceneNode) :=
  match parent with
  | none => none
  | some p =>
    let pr := p.sceneNode.createChildSceneNode vname
    some (Visual.freshlyConstructed vname pr.1, pr.2)

/-- `Visual::Visual(name, Ogre::SceneNode *parent)`: the child node is
created directly under the given node. -/
def Visual.ctorParentNode (vname : String) (parent : SceneNode) :
    Visual × SceneNode :=
  let pr := parent.createChildSceneNode vname
  (Visual.freshlyConstructed vname pr.1, pr.2)

/-- `Visual::Visual(name, Scene *scene)`: the child node is created under
the scene's root scene node. -/
def Visual.ctorScene (vname : String) (scene : Scene) : Visual × Scene :=
  let pr := scene.rootSceneNode.createChildSceneNode vname
  (Visual.freshlyConstructed vname pr.1, ⟨pr.2⟩)

/-- `Visual::GetSceneNode`. -/
def Visual.GetSceneNode (v : Visual) : SceneNode :=
  v.sceneNode

/-- `Visual::IsStatic`. -/
def Visual.IsStatic (v : Visual) : Bool :=
  v.isStatic

/-- `Visual::GetNumAttached`: 0 when the rendering engine is disabled,
else the node's number of attached objects. -/
def Visual.GetNumAttached (enabled : Bool) (v : Visual) : Nat :=
  if !enabled then 0 else v.sceneNode.attached.length

/-- `Visual::GetAttached(num)`: NULL when the rendering engine is disabled,
else the attached object at index `num`. -/
def Visual.GetAttached (enabled : Bool) (v : Visual) (num : Nat) :
    Option MovableObject :=
  if !enabled then none else v.sceneNode.attached[num]?

/-- `Visual::SetCastShadows(shadows)`: when the rendering engine is enabled,
set the flag on every attached object of the scene node, and also on the
static geometry when the visual is static and has one. -/
def Visual.SetCastShadows (enabled : Bool) (v : Visual) (shadows : Bool) : Visual :=
  if !enabled then v
  else
    let newAttached := v.sceneNode.attached.map
      (fun o => { o with castShadows := shadows })
    let v1 := { v with sceneNode := { v.sceneNode with attached := newAttached } }
    if v1.IsStatic && v1.staticGeom.isSome then
      { v1 with staticGeom := v1.staticGeom.map (fun g => { g with castShadows := shadows }) }
    else v1

/-- `Visual::SetTransparency(trans)`: when the rendering engine is enabled,
store `std::min(std::max(trans, (float)0.0), (float)1.0)`, the comparisons
being the float ones (so a NaN argument propagates and is stored).  The
per-pass diffuse-alpha updates on the Ogre materials of the attached
entities are render-library state not kept in this embedding. -/
def Visual.SetTransparency (enabled : Bool) (v : Visual) (trans : GzFloat) : Visual :=
  if !enabled then v
  else
    let clamped := GzFloat.fmin (GzFloat.fmax trans (GzFloat.val 0)) (GzFloat.val 1)
    { v with transparency := clamped }

/-- `Visual::GetTransparency`. -/
def Visual.GetTransparency (v : Visual) : GzFloat :=
  v.transparency

/-- `Visual::GetMaterialName`. -/
def Visual.GetMaterialName (v : Visual) : String :=
  v.myMaterialName

/-- `Visual::SetMaterial(materialName)` against the material manager `mm`
(the registered Ogre material names): return early when the renderer is
disabled or the name is empty; record `origMaterialName`; when the lookup
of the original material fails, log and return; otherwise build the clone
name `<sceneNodeName>_MATERIAL_<name>`, reuse the registered clone or
register a fresh one, and assign the clone name to every attached
object. -/
def Visual.SetMaterial (enabled : Bool) (mm : List String) (v : Visual)
    (materialName : String) : Visual × List String :=
  if !enabled then (v, mm)
  else if materialName = "" then (v, mm)
  else
    let v1 := { v with origMaterialName := materialName }
    if materialName ∈ mm then
      let myName := v1.sceneNode.name ++ "_MATERIAL_" ++ materialName
      let mm2 := if myName ∈ mm then mm else mm ++ [myName]
      let newAttached := v1.sceneNode.attached.map
        (fun o => { o with materialName := myName })
      let v2 := { v1 with myMaterialName := myName,
                          sceneNode := { v1.sceneNode with attached := newAttached } }
      (v2, mm2)
    else (v1, mm)

/-- `Visual::SetPosition(pos)`: copy the components into the scene node. -/
def Visual.SetPosition (v : Visual) (pos : Vector3) : Visual :=
  { v with sceneNode := { v.sceneNode with position := ⟨pos.x, pos.y, pos.z⟩ } }

/-- `Visual::SetRotation(rot)` (a no-op when the rendering engine is
disabled): copy `u,x,y,z` into the node orientation `w,x,y,z`. -/
def Visual.SetRotation (enabled : Bool) (v : Visual) (rot : Quatern) : Visual :=
  if !enabled then v
  else { v with sceneNode := { v.sceneNode with
           orientation := ⟨rot.u, rot.x, rot.y, rot.z⟩ } }

/-- `Visual::SetPose(pose)`: when enabled, `SetPosition` then
`SetRotation`. -/
def Visual.SetPose (enabled : Bool) (v : Visual) (pose : Pose3d) : Visual :=
  if !enabled then v
  else Visual.SetRotation enabled (Visual.SetPosition v pose.pos) pose.rot

/-- `Visual::GetPosition`: the node position copied back componentwise;
a default `Vector3` when the rendering engine is disabled. -/
def Visual.GetPosition (enabled : Bool) (v : Visual) : Vector3 :=
  if !enabled then Vector3.zero
  else ⟨v.sceneNode.position.x, v.sceneNode.position.y, v.sceneNode.position.z⟩

/-- `Visual::GetRotation`: the node orientation copied back, `w` into `u`;
a default `Quatern` when the rendering engine is disabled. -/
def Visual.GetRotation (enabled : Bool) (v : Visual) : Quatern :=
  if !enabled then Quatern.identityQ
  else ⟨v.sceneNode.orientation.w, v.sceneNode.orientation.x,
        v.sceneNode.orientation.y, v.sceneNode.orientation.z⟩

/-- `Visual::GetPose`: `GetPosition` and `GetRotation`; a default `Pose3d`
when the rendering engine is disabled. -/
def Visual.GetPose (enabled : Bool) (v : Visual) : Pose3d :=
  if !enabled then Pose3d.defaultPose
  else ⟨Visual.GetPosition enabled v, Visual.GetRotation enabled v⟩

/-- C4: with the rendering engine enabled, `Visual::SetCastShadows(s)` sets
the cast-shadows flag of every attached object (the attachment list keeps
its length) to `s`, and sets it on the static geometry when the visual is
static and has one. -/
theorem visual_setCastShadows_sets_all_attached (v : Visual) (s : Bool) :
    (Visual.SetCastShadows true v s).sceneNode.attached.length
        = v.sceneNode.attached.length ∧
    (∀ o ∈ (Visual.SetCastShadows true v s).sceneNode.attached,
      o.castShadows = s) ∧
    (v.isStatic = true → ∀ g, v.staticGeom = some g →
      (Visual.SetCastShadows true v s).staticGeom = some ⟨s⟩) := by
  have hmap : (Visual.SetCastShadows true v s).sceneNode.attached
      = v.sceneNode.attached.map (fun o => { o with castShadows := s }) := by
    by_cases h1 : (v.isStatic && v.staticGeom.isSome) = true <;>
      simp [Visual.SetCastShadows, Visual.IsStatic, h1]
  refine ⟨?_, ?_, ?_⟩
  · rw [hmap, List.length_map]
  · intro o ho
    rw [hmap] at ho
    rcases List.mem_map.mp ho with ⟨a, ha, rfl⟩
    rfl
  · intro hst g hg
    simp [Visual.SetCastShadows, Visual.IsStatic, hst, hg]

/-- Concrete visual used to instantiate the `Visual` theorems: two attached
objects, a static visual holding a static geometry. -/
def visualExample : Visual :=
  { name := "vis",
    sceneNode := { name := "visNode", position := ⟨1, 2, 3⟩,
                   orientation := ⟨1, 0, 0, 0⟩,
                   attached := [⟨true, false, "m0"⟩, ⟨false, true, "m1"⟩],
                   childNames := [] },
    transparency := GzFloat.val 0, isStatic := true, visible := true,
    staticGeom := some ⟨true⟩, myMaterialName := "", origMaterialName := "" }

/-- Instantiation of the C4 theorem at a concrete visual. -/
theorem visual_setCastShadows_sets_all_attached_witness :
    (Visual.SetCastShadows true visualExample true).sceneNode.attached.length
        = visualExample.sceneNode.attached.length ∧
    (∀ o ∈ (Visual.SetCastShadows true visualExample true).sceneNode.attached,
      o.castShadows = true) ∧
    (visualExample.isStatic = true → ∀ g, visualExample.staticGeom = some g →
      (Visual.SetCastShadows true visualExample true).staticGeom = some ⟨true⟩) :=
  visual_setCastShadows_sets_all_attached visualExample true

/-- C5: with the rendering engine enabled, `Visual::SetMaterial` on a
non-empty registered material name derives the clone name
`<sceneNodeName>_MATERIAL_<name>`, registers it (reusing an existing
registration), assigns it to every attached object, and afterwards
`GetMaterialName()` returns it; an empty name changes nothing. -/
theorem visual_setMaterial_clones_and_assigns (mm : List String) (v : Visual)
    (materialName : String) :
    (materialName = "" → Visual.SetMaterial true mm v materialName = (v, mm)) ∧
    (materialName ≠ "" → materialName ∈ mm →
      (Visual.SetMaterial true mm v materialName).1.myMaterialName
          = v.sceneNode.name ++ "_MATERIAL_" ++ materialName ∧
      Visual.GetMaterialName (Visual.SetMaterial true mm v materialName).1
          = v.sceneNode.name ++ "_MATERIAL_" ++ materialName ∧
      (v.sceneNode.name ++ "_MATERIAL_" ++ materialName)
          ∈ (Visual.SetMaterial true mm v materialName).2 ∧
      (∀ n, n ∈ (Visual.SetMaterial true mm v materialName).2 ↔
          (n = v.sceneNode.name ++ "_MATERIAL_" ++ materialName ∨ n ∈ mm)) ∧
      (Visual.SetMaterial true mm v materialName).1.sceneNode.attached.length
          = v.sceneNode.attached.length ∧
      (∀ o ∈ (Visual.SetMaterial true mm v materialName).1.sceneNode.attached,
        o.materialName = v.sceneNode.name ++ "_MATERIAL_" ++ materialName)) := by
  constructor
  · intro h
    simp [Visual.SetMaterial, h]
  · intro hne hmem
    refine ⟨?_, ?_, ?_, ?_, ?_, ?_⟩
    · simp [Visual.SetMaterial, hne, hmem]
    · simp [Visual.SetMaterial, Visual.GetMaterialName, hne, hmem]
    · simp only [Visual.SetMaterial, hne, hmem]
      by_cases hc : (v.sceneNode.name ++ "_MATERIAL_" ++ materialName) ∈ mm <;>
        simp [hc]
    · intro n
      simp only [Visual.SetMaterial, hne, hmem]
      by_cases hc : (v.sceneNode.name ++ "_MATERIAL_" ++ materialName) ∈ mm
      · simp [hc]
        intro h
        rw [h]
        exact hc
      · simp [hc]
        tauto
    · simp [Visual.SetMaterial, hne, hmem]
    · intro o ho
      simp only [Visual.SetMaterial, hne, hmem] at ho
      simp at ho
      rcases ho with ⟨a, ha, rfl⟩
      rfl

/-- Instantiation of the C5 theorem at a concrete visual and material
manager. -/
theorem visual_setMaterial_clones_and_assigns_witness :
    (("Gazebo/Red" : String) = "" →
      Visual.SetMaterial true ["Gazebo/Red", "Gazebo/White"] visualExample "Gazebo/Red"
        = (visualExample, ["Gazebo/Red", "Gazebo/White"])) ∧
    (("Gazebo/Red" : String) ≠ "" → ("Gazebo/Red" : String) ∈ ["Gazebo/Red", "Gazebo/White"] →
      (Visual.SetMaterial true ["Gazebo/Red", "Gazebo/White"] visualExample
          "Gazebo/Red").1.myMaterialName
          = visualExample.sceneNode.name ++ "_MATERIAL_" ++ "Gazebo/Red" ∧
      Visual.GetMaterialName (Visual.SetMaterial true ["Gazebo/Red", "Gazebo/White"]
          visualExample "Gazebo/Red").1
          = visualExample.sceneNode.name ++ "_MATERIAL_" ++ "Gazebo/Red" ∧
      (visualExample.sceneNode.name ++ "_MATERIAL_" ++ "Gazebo/Red")
          ∈ (Visual.SetMaterial true ["Gazebo/Red", "Gazebo/White"] visualExample
              "Gazebo/Red").2 ∧
      (∀ n, n ∈ (Visual.SetMaterial true ["Gazebo/Red", "Gazebo/White"] visualExample
              "Gazebo/Red").2 ↔
          (n = visualExample.sceneNode.name ++ "_MATERIAL_" ++ "Gazebo/Red"
            ∨ n ∈ ["Gazebo/Red", "Gazebo/White"])) ∧
      (Visual.SetMaterial true ["Gazebo/Red", "Gazebo/White"] visualExample
          "Gazebo/Red").1.sceneNode.attached.length
          = visualExample.sceneNode.attached.length ∧
      (∀ o ∈ (Visual.SetMaterial true ["Gazebo/Red", "Gazebo/White"] visualExample
              "Gazebo/Red").1.sceneNode.attached,
        o.materialName
          = visualExample.sceneNode.name ++ "_MATERIAL_" ++ "Gazebo/Red")) :=
  visual_setMaterial_clones_and_assigns ["Gazebo/Red", "Gazebo/White"]
    visualExample "Gazebo/Red"

/-- C6: with the rendering engine enabled, `Visual::GetPose` after
`Visual::SetPose(p)` returns `p` unchanged: the componentwise copies into
the Ogre scene node and back compose to the identity. -/
theorem visual_setPose_getPose_roundtrip (v : Visual) (p : Pose3d) :
    Visual.GetPose true (Visual.SetPose true v p) = p := by
  cases p with
  | mk pos rot =>
    cases pos
    cases rot
    simp [Visual.GetPose, Visual.SetPose, Visual.SetPosition, Visual.SetRotation,
      Visual.GetPosition, Visual.GetRotation]

/-- C7: each of the three `Visual` constructors creates exactly one new
scene node, named with the visual's name, as a child of the parent's scene
node (or of the scene's root node), and `GetSceneNode()` afterwards
returns that node; constructing from a null parent visual crashes instead
of constructing. -/
theorem visual_ctors_create_child_scene_node (vname : String) (p : Visual)
    (pnode : SceneNode) (sc : Scene) :
    (∀ out, Visual.ctorParentVisual vname (some p) = some out →
        out.1.GetSceneNode = out.1.sceneNode ∧
        out.1.sceneNode.name = vname ∧
        out.1.sceneNode.childNames = [] ∧
        out.2.childNames = p.sceneNode.childNames ++ [vname]) ∧
    Visual.ctorParentVisual vname none = none ∧
    ((Visual.ctorParentNode vname pnode).1.GetSceneNode
        = (Visual.ctorParentNode vname pnode).1.sceneNode ∧
      (Visual.ctorParentNode vname pnode).1.sceneNode.name = vname ∧
      (Visual.ctorParentNode vname pnode).1.sceneNode.childNames = [] ∧
      (Visual.ctorParentNode vname pnode).2.childNames
          = pnode.childNames ++ [vname]) ∧
    ((Visual.ctorScene vname sc).1.GetSceneNode
        = (Visual.ctorScene vname sc).1.sceneNode ∧
      (Visual.ctorScene vname sc).1.sceneNode.name = vname ∧
      (Visual.ctorScene vname sc).1.sceneNode.childNames = [] ∧
      (Visual.ctorScene vname sc).2.rootSceneNode.childNames
          = sc.rootSceneNode.childNames ++ [vname]) := by
  refine ⟨?_, rfl, ⟨rfl, rfl, rfl, rfl⟩, ⟨rfl, rfl, rfl, rfl⟩⟩
  intro out hout
  simp only [Visual.ctorParentVisual, Option.some.injEq] at hout
  rw [← hout]
  exact ⟨rfl, rfl, rfl, rfl⟩

/-- Concrete parent scene node used to instantiate the constructor
theorem. -/
def sceneNodeExample : SceneNode :=
  ⟨"root", ⟨0, 0, 0⟩, ⟨1, 0, 0, 0⟩, [], ["old"]⟩

/-- Concrete scene used to instantiate the constructor theorem. -/
def sceneExample : Scene :=
  ⟨sceneNodeExample⟩

/-- Instantiation of the C7 theorem at a concrete name, visual, node and
scene. -/
theorem visual_ctors_create_child_scene_node_witness :
    (∀ out, Visual.ctorParentVisual "kid" (some visualExample) = some out →
        out.1.GetSceneNode = out.1.sceneNode ∧
        out.1.sceneNode.name = "kid" ∧
        out.1.sceneNode.childNames = [] ∧
        out.2.childNames = visualExample.sceneNode.childNames ++ ["kid"]) ∧
    Visual.ctorParentVisual "kid" none = none ∧
    ((Visual.ctorParentNode "kid" sceneNodeExample).1.GetSceneNode
        = (Visual.ctorParentNode "kid" sceneNodeExample).1.sceneNode ∧
      (Visual.ctorParentNode "kid" sceneNodeExample).1.sceneNode.name = "kid" ∧
      (Visual.ctorParentNode "kid" sceneNodeExample).1.sceneNode.childNames = [] ∧
      (Visual.ctorParentNode "kid" sceneNodeExample).2.childNames
          = sceneNodeExample.childNames ++ ["kid"]) ∧
    ((Visual.ctorScene "kid" sceneExample).1.GetSceneNode
        = (Visual.ctorScene "kid" sceneExample).1.sceneNode ∧
      (Visual.ctorScene "kid" sceneExample).1.sceneNode.name = "kid" ∧
      (Visual.ctorScene "kid" sceneExample).1.sceneNode.childNames = [] ∧
      (Visual.ctorScene "kid" sceneExample).2.rootSceneNode.childNames
          = sceneExample.rootSceneNode.childNames ++ ["kid"]) :=
  visual_ctors_create_child_scene_node "kid" visualExample sceneNodeExample
    sceneExample

theorem gzfloat_clamp_bounds {t : GzFloat} (h : t ≠ GzFloat.nan) :
    GzFloat.le (GzFloat.val 0)
        (GzFloat.fmin (GzFloat.fmax t (GzFloat.val 0)) (GzFloat.val 1)) = true ∧
    GzFloat.le (GzFloat.fmin (GzFloat.fmax t (GzFloat.val 0)) (GzFloat.val 1))
        (GzFloat.val 1) = true := by
  cases t with
  | nan => exact absurd rfl h
  | negInf => exact ⟨by decide, by decide⟩
  | posInf => exact ⟨by decide, by decide⟩
  | val q =>
    by_cases h0 : q < 0
    · have hmax : GzFloat.fmax (GzFloat.val q) (GzFloat.val 0) = GzFloat.val 0 := by
        simp [GzFloat.fmax, GzFloat.lt, h0]
      rw [hmax]
      exact ⟨by decide, by decide⟩
    · by_cases h1 : 1 < q
      · have hmax : GzFloat.fmax (GzFloat.val q) (GzFloat.val 0) = GzFloat.val q := by
          simp [GzFloat.fmax, GzFloat.lt, h0]
        have hmin : GzFloat.fmin (GzFloat.val q) (GzFloat.val 1) = GzFloat.val 1 := by
          simp [GzFloat.fmin, GzFloat.lt, h1]
        rw [hmax, hmin]
        exact ⟨by decide, by decide⟩
      · have hmax : GzFloat.fmax (GzFloat.val q) (GzFloat.val 0) = GzFloat.val q := by
          simp [GzFloat.fmax, GzFloat.lt, h0]
        have hmin : GzFloat.fmin (GzFloat.val q) (GzFloat.val 1) = GzFloat.val q := by
          simp [GzFloat.fmin, GzFloat.lt, h1]
        rw [hmax, hmin]
        push_neg at h0 h1
        constructor
        · simp [GzFloat.le]
          exact h0
        · simp [GzFloat.le]
          exact h1

/-- The C8 claim as stated is false at `t = NaN`: the comparisons inside
`std::max` and `std::min` are both false, so `SetTransparency` stores NaN
and the invariant `0 ≤ transparency ≤ 1` fails afterwards. -/
theorem visual_setTransparency_nan_counterexample :
    (Visual.SetTransparency true visualExample GzFloat.nan).transparency
        = GzFloat.nan ∧
    ¬ (GzFloat.le (GzFloat.val 0)
          (Visual.SetTransparency true visualExample GzFloat.nan).transparency
            = true ∧
       GzFloat.le
          (Visual.SetTransparency true visualExample GzFloat.nan).transparency
          (GzFloat.val 1) = true) := by
  refine ⟨rfl, ?_⟩
  intro hcon
  exact Bool.false_ne_true hcon.1

/-- C8 (amended): with the rendering engine enabled,
`Visual::SetTransparency(t)` stores `std::min(std::max(t, 0.0f), 1.0f)`
and `GetTransparency` returns that value; for every non-NaN `t` the stored
value lies in `[0,1]`, and the invariant `0 ≤ transparency ≤ 1` is
preserved by any call with a non-NaN argument whether or not the renderer
is enabled.  At `t = NaN` the program stores NaN and the invariant
fails. -/
theorem visual_setTransparency_clamps (v : Visual) (t : GzFloat) :
    (Visual.SetTransparency true v t).transparency
        = GzFloat.fmin (GzFloat.fmax t (GzFloat.val 0)) (GzFloat.val 1) ∧
    Visual.GetTransparency (Visual.SetTransparency true v t)
        = GzFloat.fmin (GzFloat.fmax t (GzFloat.val 0)) (GzFloat.val 1) ∧
    (t ≠ GzFloat.nan →
      GzFloat.le (GzFloat.val 0)
          (Visual.SetTransparency true v t).transparency = true ∧
      GzFloat.le (Visual.SetTransparency true v t).transparency
          (GzFloat.val 1) = true) ∧
    (t ≠ GzFloat.nan → ∀ e : Bool,
      GzFloat.le (GzFloat.val 0) v.transparency = true →
      GzFloat.le v.transparency (GzFloat.val 1) = true →
      GzFloat.le (GzFloat.val 0)
          (Visual.SetTransparency e v t).transparency = true ∧
      GzFloat.le (Visual.SetTransparency e v t).transparency
          (GzFloat.val 1) = true) := by
  have hval : (Visual.SetTransparency true v t).transparency
      = GzFloat.fmin (GzFloat.fmax t (GzFloat.val 0)) (GzFloat.val 1) := rfl
  refine ⟨hval, hval, ?_, ?_⟩
  · intro hn
    rw [hval]
    exact gzfloat_clamp_bounds hn
  · intro hn e h0 h1
    cases e with
    | false => exact ⟨h0, h1⟩
    | true =>
      rw [hval]
      exact gzfloat_clamp_bounds hn

/-- Instantiation of the amended C8 theorem at a concrete visual and a
finite out-of-range transparency. -/
theorem visual_setTransparency_clamps_witness :
    (Visual.SetTransparency true visualExample (GzFloat.val (3/2))).transparency
        = GzFloat.fmin (GzFloat.fmax (GzFloat.val (3/2)) (GzFloat.val 0))
            (GzFloat.val 1) ∧
    Visual.GetTransparency
        (Visual.SetTransparency true visualExample (GzFloat.val (3/2)))
        = GzFloat.fmin (GzFloat.fmax (GzFloat.val (3/2)) (GzFloat.val 0))
            (GzFloat.val 1) ∧
    (GzFloat.val (3/2) ≠ GzFloat.nan →
      GzFloat.le (GzFloat.val 0)
          (Visual.SetTransparency true visualExample
            (GzFloat.val (3/2))).transparency = true ∧
      GzFloat.le (Visual.SetTransparency true visualExample
            (GzFloat.val (3/2))).transparency (GzFloat.val 1) = true) ∧
    (GzFloat.val (3/2) ≠ GzFloat.nan → ∀ e : Bool,
      GzFloat.le (GzFloat.val 0) visualExample.transparency = true →
      GzFloat.le visualExample.transparency (GzFloat.val 1) = true →
      GzFloat.le (GzFloat.val 0)
          (Visual.SetTransparency e visualExample
            (GzFloat.val (3/2))).transparency = true ∧
      GzFloat.le (Visual.SetTransparency e visualExample
            (GzFloat.val (3/2))).transparency (GzFloat.val 1) = true) :=
  visual_setTransparency_clamps visualExample (GzFloat.val (3/2))

/-- C10: with the rendering engine disabled, the accessors return the fixed
defaults regardless of the scene node state: `GetNumAttached` returns 0,
`GetAttached` returns NULL at every index, `GetPosition` returns the zero
vector. -/
theorem visual_disabled_accessors_return_defaults (v : Visual) :
    Visual.GetNumAttached false v = 0 ∧
    (∀ n, Visual.GetAttached false v n = none) ∧
    Visual.GetPosition false v = Vector3.zero :=
  ⟨rfl, fun _ => rfl, rfl⟩

end Gazebo
